import Mathlib

/-!
Allocation-counting shim `sneaky_t` and the stack contract it checks.

Source: `stage2-3-tests/earlywarning-use-newdelete-ops.h`.

The header defines `sneaky_t`, an empty class whose class-specific
`operator new`, `operator delete`, `operator new[]` and `operator delete[]`
update five static data members, and three active tests (plus one that is
commented out) that push `sneaky_t` values on a `stack<sneaky_t>`.

Modelling decisions.
* The five static data members are the fields of `sneaky_t.statics`; every
  operator is a function on that record.  Pointers and the memory returned by
  the global allocation functions are not represented.
* `std::size_t` counters are natural numbers, incremented modulo `2 ^ 64`.
* A `std::size_t` argument (`count`, `size`) is a natural number; the code does
  no integer arithmetic on it.
* `max_growth_factor` is a `double` in the source; here it is an exact rational
  and `count/double(last_allocation_size)` is exact division.
* `stack<T>` itself is not part of the header; it is modelled from the written
  specification (see the second half of the definitions).
-/

namespace sneaky_use_newdelete_ops

/-- Number of values of `std::size_t`: a counter wraps modulo this. -/
def SIZE_MOD : Nat := 2 ^ 64

/-- An instance of the class `sneaky_t`: the class has no non-static data
member. -/
structure sneaky_t where
  deriving DecidableEq, Repr

/-- The static data members of `sneaky_t` (source lines 43-47). -/
structure sneaky_t.statics where
  new_calls : Nat
  delete_calls : Nat
  non_array_calls : Nat
  last_allocation_size : Nat
  max_growth_factor : ℚ
  deriving DecidableEq, Repr

namespace sneaky_t

/-- `static void* operator new(std::size_t count)` (lines 13-17). -/
def operator_new (_count : Nat) (s : statics) : statics :=
  { s with non_array_calls := (s.non_array_calls + 1) % SIZE_MOD }

/-- `static void operator delete(void* ptr)` (lines 18-22). -/
def operator_delete (s : statics) : statics :=
  { s with non_array_calls := (s.non_array_calls + 1) % SIZE_MOD }

/-- `static void* operator new[](std::size_t count)` (lines 24-37). -/
def operator_new_array (count : Nat) (s : statics) : statics :=
  let s1 : statics := { s with new_calls := (s.new_calls + 1) % SIZE_MOD }
  if s1.last_allocation_size = 0 then
    { s1 with last_allocation_size := count }
  else
    let this_growth_factor : ℚ := (count : ℚ) / (s1.last_allocation_size : ℚ)
    { s1 with
      max_growth_factor :=
        if this_growth_factor > s1.max_growth_factor then this_growth_factor
        else s1.max_growth_factor }

/-- `static void operator delete[](void* ptr, std::size_t size)`
(lines 38-42). -/
def operator_delete_array (_size : Nat) (s : statics) : statics :=
  { s with delete_calls := (s.delete_calls + 1) % SIZE_MOD }

/-- `static void reset()` (lines 48-52). -/
def reset (_s : statics) : statics :=
  { new_calls := 0, delete_calls := 0, non_array_calls := 0,
    last_allocation_size := 0, max_growth_factor := 0 }

end sneaky_t

open sneaky_t

/-- One call of a shim operator, with its `std::size_t` argument. -/
inductive call where
  | scalar_new (count : Nat)
  | scalar_delete
  | array_new (count : Nat)
  | array_delete (size : Nat)
  deriving DecidableEq, Repr

/-- Effect of one shim call on the static data. -/
def call.apply : call → statics → statics
  | .scalar_new count, s => operator_new count s
  | .scalar_delete, s => operator_delete s
  | .array_new count, s => operator_new_array count s
  | .array_delete size, s => operator_delete_array size s

/-- Effect of a sequence of shim calls, executed in order. -/
def run : List call → statics → statics
  | [], s => s
  | c :: cs, s => run cs (c.apply s)

/-- Effect of a sequence of `operator new[]` calls with the given request
sizes. -/
def run_new_array (counts : List Nat) (s : statics) : statics :=
  run (counts.map call.array_new) s

/-- Whether the call is the scalar `operator new`. -/
def call.is_scalar_new : call → Bool
  | .scalar_new _ => true
  | _ => false

/-- Whether the call is the scalar `operator delete`. -/
def call.is_scalar_delete : call → Bool
  | .scalar_delete => true
  | _ => false

/-- Whether the call is `operator new[]`. -/
def call.is_array_new : call → Bool
  | .array_new _ => true
  | _ => false

/-- Whether the call is `operator delete[]`. -/
def call.is_array_delete : call → Bool
  | .array_delete _ => true
  | _ => false

/-- The described value of `last_allocation_size` after the `operator new[]`
requests `counts`, written from the description and not from the code: "let
`j` be the index of the first non-zero request"; the value is `c_j`, and `0`
when there is no such `j`.  `counts.dropWhile (· == 0)` is
`c_j :: [c_(j+1), ..., c_n]` when `j` exists and `[]` otherwise. -/
def spec_last_allocation_size (counts : List Nat) : Nat :=
  match counts.dropWhile (· == 0) with
  | [] => 0
  | cj :: _ => cj

/-- The described value of `max_growth_factor`, written from the description
and not from the code: `max(0, max over i > j of c_i / c_j)` as an exact
rational, and `0` when every request is zero. -/
def spec_max_growth_factor (counts : List Nat) : ℚ :=
  match counts.dropWhile (· == 0) with
  | [] => 0
  | cj :: rest => (rest.map (fun c => (c : ℚ) / (cj : ℚ))).foldr max 0

/-! ## The stack, modelled from the specification

`stack<T>` is used by the tests but is not defined in the header.  The
definitions below follow sections 3 and 4.1 of the specification. -/

/-- Modelled from the spec: the class template `stack<T>` is missing from the
sources; these are the choices that the specification leaves to its
implementer.  "`buffer` is allocated at construction (or lazily on first push)
with a base capacity"; "growth policy should be expressed as a pure function
`next_capacity(current_capacity) -> new_capacity`".  `array_overhead` is the
number of bytes an array new-expression requests on top of the elements. -/
structure stack_impl where
  base_capacity : Nat
  next_capacity : Nat → Nat
  lazy_allocation : Bool
  array_overhead : Nat

/-- Modelled from the spec: the data model of the missing `stack<T>`.
"Attributes: `buffer`, `size`, `cap`": `buffer` holds the constructed elements
at indices `[0, size)`, `cap` is the allocated capacity, and `allocated` says
whether a block is owned (`buffer` non-null). -/
structure stack (T : Type) where
  buffer : List T
  cap : Nat
  allocated : Bool

/-- Modelled from the spec: `size` of the missing `stack<T>`, the "number of
live elements". -/
def stack.size {T : Type} (st : stack T) : Nat := st.buffer.length

/-- Size in bytes of one `sneaky_t`: a class without data members. -/
def sizeof_sneaky_t : Nat := 1

/-- Modelled from the spec: the `count` that the missing `stack<sneaky_t>`
passes to `operator new[]` for a block of `n` elements. -/
def array_bytes (p : stack_impl) (n : Nat) : Nat :=
  (n * sizeof_sneaky_t + p.array_overhead) % SIZE_MOD

/-- Modelled from the spec: the constructor of the missing `stack<sneaky_t>`.
"`buffer` is allocated at construction (or lazily on first push) with a base
capacity". -/
def stack.construct (p : stack_impl) (sh : statics) : stack sneaky_t × statics :=
  if p.lazy_allocation then
    ({ buffer := [], cap := 0, allocated := false }, sh)
  else
    ({ buffer := [], cap := p.base_capacity, allocated := true },
      operator_new_array (array_bytes p p.base_capacity) sh)

/-- Modelled from the spec: the growth step of the missing `stack<sneaky_t>`.
"Allocate a new block of capacity `cap' > cap`, transfer the `size` existing
elements into it preserving order and values, release the old block"; on a
stack that allocates lazily the first block has the base capacity and there is
no old block to release. -/
def stack.grow (p : stack_impl) (x : stack sneaky_t × statics) :
    stack sneaky_t × statics :=
  if x.1.allocated then
    let cap' := p.next_capacity x.1.cap
    let sh1 := operator_new_array (array_bytes p cap') x.2
    let sh2 := operator_delete_array (array_bytes p x.1.cap) sh1
    ({ x.1 with cap := cap' }, sh2)
  else
    ({ x.1 with cap := p.base_capacity, allocated := true },
      operator_new_array (array_bytes p p.base_capacity) x.2)

/-- Modelled from the spec: `push` of the missing `stack<sneaky_t>`.
"If `size == cap`, grow the backing store, then store `value` at index `size`,
increment `size`." -/
def stack.push (p : stack_impl) (value : sneaky_t) (x : stack sneaky_t × statics) :
    stack sneaky_t × statics :=
  let y := if x.1.size = x.1.cap then stack.grow p x else x
  ({ y.1 with buffer := y.1.buffer ++ [value] }, y.2)

/-- The loop `for( int i=0; i<N; ++i ) stk.push( sneaky_t() );` of the tests. -/
def push_n (p : stack_impl) : Nat → stack sneaky_t × statics → stack sneaky_t × statics
  | 0, x => x
  | n + 1, x => stack.push p {} (push_n p n x)

/-- The body of one test iteration: `sneaky_t::reset(); stack<sneaky_t> stk;`
followed by `N` pushes.  The result is the stack, still alive, and the static
data of the shim. -/
def test_run (p : stack_impl) (N : Nat) (s : statics) : stack sneaky_t × statics :=
  push_n p N (stack.construct p (reset s))

/-- A stack with base capacity 32 that doubles its capacity, allocating in the
constructor. -/
def doubling_32 : stack_impl :=
  { base_capacity := 32, next_capacity := fun c => 2 * c,
    lazy_allocation := false, array_overhead := 0 }

/-- A stack with base capacity 16 that doubles its capacity, allocating in the
constructor. -/
def doubling_16 : stack_impl :=
  { base_capacity := 16, next_capacity := fun c => 2 * c,
    lazy_allocation := false, array_overhead := 0 }

/-- Static data with arbitrary left-over values, as an earlier test leaves it. -/
def stale_statics : statics :=
  { new_calls := 7, delete_calls := 6, non_array_calls := 2,
    last_allocation_size := 40, max_growth_factor := 4 }

/-! ## Lemmas on the shim -/

section shim_lemmas

@[simp]
theorem new_calls_operator_new_array (count : Nat) (s : statics) :
    (operator_new_array count s).new_calls = (s.new_calls + 1) % SIZE_MOD := by
  by_cases h : s.last_allocation_size = 0 <;> simp [operator_new_array, h]

@[simp]
theorem delete_calls_operator_new_array (count : Nat) (s : statics) :
    (operator_new_array count s).delete_calls = s.delete_calls := by
  by_cases h : s.last_allocation_size = 0 <;> simp [operator_new_array, h]

@[simp]
theorem non_array_calls_operator_new_array (count : Nat) (s : statics) :
    (operator_new_array count s).non_array_calls = s.non_array_calls := by
  by_cases h : s.last_allocation_size = 0 <;> simp [operator_new_array, h]

@[simp]
theorem new_calls_operator_delete_array (size : Nat) (s : statics) :
    (operator_delete_array size s).new_calls = s.new_calls := rfl

@[simp]
theorem delete_calls_operator_delete_array (size : Nat) (s : statics) :
    (operator_delete_array size s).delete_calls = (s.delete_calls + 1) % SIZE_MOD := rfl

@[simp]
theorem non_array_calls_operator_delete_array (size : Nat) (s : statics) :
    (operator_delete_array size s).non_array_calls = s.non_array_calls := rfl

theorem SIZE_MOD_pos : 0 < SIZE_MOD := by
  unfold SIZE_MOD
  positivity

theorem run_append (cs ds : List call) (s : statics) :
    run (cs ++ ds) s = run ds (run cs s) := by
  induction cs generalizing s with
  | nil => rfl
  | cons c cs ih => simp [run, ih]

/-- The `new_calls` counter after a run is the start value plus the number of
`operator new[]` calls, modulo `2 ^ 64`. -/
theorem run_new_calls (cs : List call) (s : statics) (hs : s.new_calls < SIZE_MOD) :
    (run cs s).new_calls = (s.new_calls + cs.countP call.is_array_new) % SIZE_MOD := by
  induction cs generalizing s with
  | nil => simp [run, Nat.mod_eq_of_lt hs]
  | cons c cs ih =>
    cases c with
    | array_new count =>
      have h1 : (operator_new_array count s).new_calls < SIZE_MOD := by
        rw [new_calls_operator_new_array]
        exact Nat.mod_lt _ SIZE_MOD_pos
      rw [run, call.apply, ih _ h1, new_calls_operator_new_array]
      simp only [List.countP_cons, call.is_array_new, if_true]
      rw [Nat.mod_add_mod]
      congr 1
      omega
    | scalar_new count =>
      rw [run, ih _ (by simpa [call.apply, operator_new] using hs)]
      simp [call.apply, operator_new, call.is_array_new]
    | scalar_delete =>
      rw [run, ih _ (by simpa [call.apply, operator_delete] using hs)]
      simp [call.apply, operator_delete, call.is_array_new]
    | array_delete size =>
      rw [run, ih _ (by simpa [call.apply, operator_delete_array] using hs)]
      simp [call.apply, operator_delete_array, call.is_array_new]

/-- The `delete_calls` counter after a run is the start value plus the number
of `operator delete[]` calls, modulo `2 ^ 64`. -/
theorem run_delete_calls (cs : List call) (s : statics) (hs : s.delete_calls < SIZE_MOD) :
    (run cs s).delete_calls
      = (s.delete_calls + cs.countP call.is_array_delete) % SIZE_MOD := by
  induction cs generalizing s with
  | nil => simp [run, Nat.mod_eq_of_lt hs]
  | cons c cs ih =>
    cases c with
    | array_delete size =>
      have h1 : (operator_delete_array size s).delete_calls < SIZE_MOD := by
        rw [delete_calls_operator_delete_array]
        exact Nat.mod_lt _ SIZE_MOD_pos
      rw [run, call.apply, ih _ h1, delete_calls_operator_delete_array]
      simp only [List.countP_cons, call.is_array_delete, if_true]
      rw [Nat.mod_add_mod]
      congr 1
      omega
    | scalar_new count =>
      rw [run, ih _ (by simpa [call.apply, operator_new] using hs)]
      simp [call.apply, operator_new, call.is_array_delete]
    | scalar_delete =>
      rw [run, ih _ (by simpa [call.apply, operator_delete] using hs)]
      simp [call.apply, operator_delete, call.is_array_delete]
    | array_new count =>
      rw [run, ih _ (by simpa [call.apply] using hs)]
      simp [call.apply, call.is_array_delete]

/-- The `non_array_calls` counter after a run is the start value plus the
number of scalar `operator new` and scalar `operator delete` calls, modulo
`2 ^ 64`. -/
theorem run_non_array_calls (cs : List call) (s : statics)
    (hs : s.non_array_calls < SIZE_MOD) :
    (run cs s).non_array_calls
      = (s.non_array_calls + (cs.countP call.is_scalar_new
          + cs.countP call.is_scalar_delete)) % SIZE_MOD := by
  induction cs generalizing s with
  | nil => simp [run, Nat.mod_eq_of_lt hs]
  | cons c cs ih =>
    cases c with
    | scalar_new count =>
      have h1 : (operator_new count s).non_array_calls < SIZE_MOD :=
        Nat.mod_lt _ SIZE_MOD_pos
      rw [run, call.apply, ih _ h1]
      simp only [List.countP_cons, call.is_scalar_new, call.is_scalar_delete, if_true,
        operator_new]
      rw [Nat.mod_add_mod]
      congr 1
      simp
      omega
    | scalar_delete =>
      have h1 : (operator_delete s).non_array_calls < SIZE_MOD :=
        Nat.mod_lt _ SIZE_MOD_pos
      rw [run, call.apply, ih _ h1]
      simp only [List.countP_cons, call.is_scalar_new, call.is_scalar_delete, if_true,
        operator_delete]
      rw [Nat.mod_add_mod]
      congr 1
      simp
      omega
    | array_new count =>
      rw [run, ih _ (by simpa [call.apply] using hs)]
      simp [call.apply, call.is_scalar_new, call.is_scalar_delete]
    | array_delete size =>
      rw [run, ih _ (by simpa [call.apply] using hs)]
      simp [call.apply, call.is_scalar_new, call.is_scalar_delete]

theorem foldr_max_init (l : List ℚ) (a b : ℚ) :
    l.foldr max (max a b) = max a (l.foldr max b) := by
  induction l with
  | nil => rfl
  | cons x l ih => simp only [List.foldr_cons, ih, max_left_comm]

/-- Once `last_allocation_size` is non-zero it stays, and every later request
is compared with it. -/
theorem run_new_array_of_ne_zero (counts : List Nat) (s : statics)
    (h : s.last_allocation_size ≠ 0) :
    (run_new_array counts s).last_allocation_size = s.last_allocation_size ∧
    (run_new_array counts s).max_growth_factor
      = (counts.map (fun c => (c : ℚ) / (s.last_allocation_size : ℚ))).foldr max
          s.max_growth_factor := by
  induction counts generalizing s with
  | nil => simp [run_new_array, run]
  | cons c cs ih =>
    have hl : (operator_new_array c s).last_allocation_size = s.last_allocation_size := by
      simp [operator_new_array, h]
    have hm : (operator_new_array c s).max_growth_factor
        = max ((c : ℚ) / (s.last_allocation_size : ℚ)) s.max_growth_factor := by
      simp only [operator_new_array, h, if_false]
      by_cases hlt : s.max_growth_factor < (c : ℚ) / (s.last_allocation_size : ℚ)
      · simp [hlt, max_eq_left (le_of_lt hlt)]
      · simp [hlt, max_eq_right (not_lt.mp hlt)]
    have := ih (operator_new_array c s) (by rw [hl]; exact h)
    simp only [run_new_array, List.map_cons, run, call.apply] at this ⊢
    rw [this.1, this.2, hl, hm, foldr_max_init]
    simp

/-- While every request is zero nothing is recorded; the first non-zero
request is recorded and never replaced. -/
theorem run_new_array_of_zero (counts : List Nat) (s : statics)
    (h : s.last_allocation_size = 0) (h0 : s.max_growth_factor = 0) :
    (run_new_array counts s).last_allocation_size = spec_last_allocation_size counts ∧
    (run_new_array counts s).max_growth_factor = spec_max_growth_factor counts := by
  induction counts generalizing s with
  | nil =>
    simp [run_new_array, run, spec_last_allocation_size, spec_max_growth_factor, h, h0]
  | cons c cs ih =>
    by_cases hc : c = 0
    · subst hc
      have hl : (operator_new_array 0 s).last_allocation_size = 0 := by
        simp [operator_new_array, h]
      have hm : (operator_new_array 0 s).max_growth_factor = 0 := by
        simp [operator_new_array, h, h0]
      have := ih (operator_new_array 0 s) hl hm
      simpa [run_new_array, run, call.apply, spec_last_allocation_size,
        spec_max_growth_factor] using this
    · have hl : (operator_new_array c s).last_allocation_size = c := by
        simp [operator_new_array, h]
      have hm : (operator_new_array c s).max_growth_factor = 0 := by
        simp [operator_new_array, h, h0]
      have := run_new_array_of_ne_zero cs (operator_new_array c s) (by rw [hl]; exact hc)
      simp only [run_new_array, List.map_cons, run, call.apply] at this ⊢
      rw [this.1, this.2, hl, hm]
      have hd : (c :: cs).dropWhile (· == 0) = c :: cs := by
        rw [List.dropWhile_cons]
        simp [hc]
      simp only [spec_last_allocation_size, spec_max_growth_factor, hd, true_and]

/-- Reading of `spec_last_allocation_size` and `spec_max_growth_factor` when
every request is zero: there is no index `j`. -/
theorem spec_growth_all_zero (counts : List Nat) (h : ∀ c ∈ counts, c = 0) :
    spec_last_allocation_size counts = 0 ∧ spec_max_growth_factor counts = 0 := by
  have hd : counts.dropWhile (· == 0) = [] := by
    rw [List.dropWhile_eq_nil_iff]
    intro c hc
    simp [h c hc]
  simp [spec_last_allocation_size, spec_max_growth_factor, hd]

/-- Reading of `spec_last_allocation_size` and `spec_max_growth_factor` when
`k` zero requests come before the first non-zero request `cj`, and `rest`
after it. -/
theorem spec_growth_first_nonzero (k cj : Nat) (rest : List Nat) (h : cj ≠ 0) :
    spec_last_allocation_size (List.replicate k 0 ++ cj :: rest) = cj ∧
    spec_max_growth_factor (List.replicate k 0 ++ cj :: rest)
      = (rest.map (fun c => (c : ℚ) / (cj : ℚ))).foldr max 0 := by
  have hd : (List.replicate k 0 ++ cj :: rest).dropWhile (· == 0) = cj :: rest := by
    induction k with
    | zero => simp [List.dropWhile_cons, h]
    | succ k ih => simpa [List.replicate_succ, List.dropWhile_cons] using ih
  simp [spec_last_allocation_size, spec_max_growth_factor, hd]

end shim_lemmas

/-! ## Lemmas on the stack -/

section stack_lemmas

theorem push_no_grow (p : stack_impl) (v : sneaky_t) (x : stack sneaky_t × statics)
    (h : x.1.buffer.length ≠ x.1.cap) :
    stack.push p v x = ({ x.1 with buffer := x.1.buffer ++ [v] }, x.2) := by
  simp [stack.push, stack.size, h]

theorem push_grow_allocated (p : stack_impl) (v : sneaky_t) (x : stack sneaky_t × statics)
    (h : x.1.buffer.length = x.1.cap) (ha : x.1.allocated = true) :
    stack.push p v x
      = ({ buffer := x.1.buffer ++ [v], cap := p.next_capacity x.1.cap, allocated := true },
          operator_delete_array (array_bytes p x.1.cap)
            (operator_new_array (array_bytes p (p.next_capacity x.1.cap)) x.2)) := by
  simp [stack.push, stack.size, stack.grow, h, ha]

theorem push_grow_first (p : stack_impl) (v : sneaky_t) (x : stack sneaky_t × statics)
    (h : x.1.buffer.length = x.1.cap) (ha : x.1.allocated = false) :
    stack.push p v x
      = ({ buffer := x.1.buffer ++ [v], cap := p.base_capacity, allocated := true },
          operator_new_array (array_bytes p p.base_capacity) x.2) := by
  simp [stack.push, stack.size, stack.grow, h, ha]

theorem test_run_succ (p : stack_impl) (n : Nat) (s : statics) :
    test_run p (n + 1) s = stack.push p {} (test_run p n s) := rfl

/-- Bookkeeping of one test iteration, for every implementation: `n` elements
are stored, no scalar call was made, at most `n` blocks were released, and
once a block is owned exactly one more block was acquired than released. -/
theorem test_run_counts (p : stack_impl) (s : statics) (n : Nat) :
    (test_run p n s).1.buffer.length = n ∧
    (test_run p n s).2.non_array_calls = 0 ∧
    (test_run p n s).2.delete_calls ≤ n ∧
    ((test_run p n s).1.allocated = true →
      (test_run p n s).2.new_calls
        = ((test_run p n s).2.delete_calls + 1) % SIZE_MOD) ∧
    ((test_run p n s).1.allocated = false →
      n = 0 ∧ (test_run p n s).1.cap = 0 ∧ (test_run p n s).2.new_calls = 0 ∧
      (test_run p n s).2.delete_calls = 0) := by
  induction n with
  | zero =>
    cases hl : p.lazy_allocation <;>
      simp [test_run, push_n, stack.construct, hl, reset, SIZE_MOD]
  | succ n ih =>
    rw [test_run_succ]
    obtain ⟨h1, h2, h3, h4, h5⟩ := ih
    by_cases hsz : (test_run p n s).1.buffer.length = (test_run p n s).1.cap
    · cases ha : (test_run p n s).1.allocated
      · obtain ⟨_, _, h7, h8⟩ := h5 ha
        rw [push_grow_first p _ _ hsz ha]
        simp [h1, h2, h7, h8, SIZE_MOD]
      · have h6 := h4 ha
        rw [push_grow_allocated p _ _ hsz ha]
        have hle : ((test_run p n s).2.delete_calls + 1) % SIZE_MOD
            ≤ (test_run p n s).2.delete_calls + 1 := Nat.mod_le _ _
        simp only [List.length_append, List.length_singleton, h1,
          non_array_calls_operator_delete_array, non_array_calls_operator_new_array, h2,
          delete_calls_operator_delete_array, delete_calls_operator_new_array,
          new_calls_operator_delete_array, new_calls_operator_new_array, h6, true_and]
        refine ⟨by omega, fun _ => trivial, fun h => by simp at h⟩
    · rw [push_no_grow p _ _ hsz]
      simp only [List.length_append, List.length_singleton, h1, h2, true_and]
      refine ⟨by omega, h4, fun h => ?_⟩
      have := h5 h
      omega

/-- With base capacity 32 the first block serves the first 32 pushes: after
`n` pushes, `1 ≤ n ≤ 32`, one block was acquired and it has capacity 32. -/
theorem test_run_base_32 (p : stack_impl) (s : statics) (hb : p.base_capacity = 32)
    (n : Nat) (h1 : 1 ≤ n) (h32 : n ≤ 32) :
    (test_run p n s).1.cap = 32 ∧ (test_run p n s).1.allocated = true ∧
    (test_run p n s).2.new_calls = 1 := by
  induction n with
  | zero => omega
  | succ n ih =>
    obtain ⟨c1, -, -, -, c5⟩ := test_run_counts p s n
    rw [test_run_succ]
    by_cases hn : n = 0
    · subst hn
      cases hl : p.lazy_allocation <;>
        simp [test_run, push_n, stack.construct, stack.push, stack.grow, stack.size, hl, hb,
          reset, SIZE_MOD]
    · obtain ⟨i1, i2, i3⟩ := ih (by omega) (by omega)
      have hsz : (test_run p n s).1.buffer.length ≠ (test_run p n s).1.cap := by
        rw [c1, i1]
        omega
      rw [push_no_grow p _ _ hsz]
      exact ⟨i1, i2, i3⟩

end stack_lemmas

/-! ## The shim: claims -/

/-- C5: after `reset()`, for every finite sequence of shim calls with fewer
than `2 ^ 64` calls of `operator new[]` and of `operator delete[]`,
`new_calls` is the number of `operator new[]` calls in the sequence and
`delete_calls` is the number of `operator delete[]` calls, whatever the
requested sizes and the interleaving. -/
theorem C5_array_counters_count_calls (cs : List call) (s : statics)
    (hn : cs.countP call.is_array_new < 2 ^ 64)
    (hd : cs.countP call.is_array_delete < 2 ^ 64) :
    (run cs (reset s)).new_calls = cs.countP call.is_array_new ∧
    (run cs (reset s)).delete_calls = cs.countP call.is_array_delete := by
  constructor
  · rw [run_new_calls cs (reset s) SIZE_MOD_pos]
    simpa [reset, SIZE_MOD] using Nat.mod_eq_of_lt hn
  · rw [run_delete_calls cs (reset s) SIZE_MOD_pos]
    simpa [reset, SIZE_MOD] using Nat.mod_eq_of_lt hd

/-- Witness of C5: two `new[]`, one `delete[]` and two scalar calls,
interleaved, after a reset of stale static data. -/
theorem C5_array_counters_count_calls_witness :
    (run [call.array_new 32, call.scalar_new 1, call.array_new 64,
        call.array_delete 32, call.scalar_delete] (reset stale_statics)).new_calls
      = [call.array_new 32, call.scalar_new 1, call.array_new 64,
        call.array_delete 32, call.scalar_delete].countP call.is_array_new ∧
    (run [call.array_new 32, call.scalar_new 1, call.array_new 64,
        call.array_delete 32, call.scalar_delete] (reset stale_statics)).delete_calls
      = [call.array_new 32, call.scalar_new 1, call.array_new 64,
        call.array_delete 32, call.scalar_delete].countP call.is_array_delete :=
  C5_array_counters_count_calls _ stale_statics (by decide) (by decide)

/-- C6, evaluated on the code: after `reset()`, `operator new[](32)` and then
`operator new[](64)`, `last_allocation_size` is `32`, the first request, and
not `64`, the most recent one; the second call recorded the ratio `2`
instead. -/
theorem C6_last_allocation_size_keeps_first_request :
    (run_new_array [32, 64] (reset stale_statics)).last_allocation_size = 32 ∧
    (run_new_array [32, 64] (reset stale_statics)).last_allocation_size ≠ 64 ∧
    (run_new_array [32, 64] (reset stale_statics)).max_growth_factor = 2 := by
  refine ⟨?_, ?_, ?_⟩ <;>
    norm_num [run_new_array, run, call.apply, operator_new_array, reset]

/-- C7, evaluated on the code: after `reset()` and the requests
`32, 64, 128, 256, 512` (each non-zero and twice, so at most 8 times, the one
before it), `max_growth_factor` is `16`, which is above `8`. -/
theorem C7_max_growth_factor_is_relative_to_first_request :
    [32, 64, 128, 256, 512].all (fun c => c != 0) = true ∧
    List.Chain' (fun a b => b ≤ 8 * a) [32, 64, 128, 256, 512] ∧
    (run_new_array [32, 64, 128, 256, 512] (reset stale_statics)).max_growth_factor = 16 ∧
    ¬ (run_new_array [32, 64, 128, 256, 512] (reset stale_statics)).max_growth_factor ≤ 8 := by
  have h : (run_new_array [32, 64, 128, 256, 512]
      (reset stale_statics)).max_growth_factor = 16 := by
    norm_num [run_new_array, run, call.apply, operator_new_array, reset]
  rw [h]
  refine ⟨by decide, by simp, rfl, ?_⟩
  norm_num

/-- C8: after `reset()`, for every finite sequence of shim calls with fewer
than `2 ^ 64` scalar calls in total, `non_array_calls` is the number of scalar
`operator new` calls plus the number of scalar `operator delete` calls; it is
`0` exactly when no call of the sequence is a scalar `new` or a scalar
`delete`; and `operator new[]` and `operator delete[]` leave it unchanged in
every state. -/
theorem C8_non_array_calls_counts_scalar_calls (cs : List call) (s : statics)
    (h : cs.countP call.is_scalar_new + cs.countP call.is_scalar_delete < 2 ^ 64) :
    (run cs (reset s)).non_array_calls
      = cs.countP call.is_scalar_new + cs.countP call.is_scalar_delete ∧
    ((run cs (reset s)).non_array_calls = 0 ↔
      ∀ c ∈ cs, c.is_scalar_new = false ∧ c.is_scalar_delete = false) ∧
    (∀ (count : Nat) (s' : statics),
      (operator_new_array count s').non_array_calls = s'.non_array_calls) ∧
    (∀ (size : Nat) (s' : statics),
      (operator_delete_array size s').non_array_calls = s'.non_array_calls) := by
  have key : (run cs (reset s)).non_array_calls
      = cs.countP call.is_scalar_new + cs.countP call.is_scalar_delete := by
    rw [run_non_array_calls cs (reset s) SIZE_MOD_pos]
    simpa [reset, SIZE_MOD] using Nat.mod_eq_of_lt h
  refine ⟨key, ?_, fun count s' => by simp, fun size s' => by simp⟩
  rw [key, Nat.add_eq_zero_iff, List.countP_eq_zero, List.countP_eq_zero]
  constructor
  · intro hh c hc
    exact ⟨by simpa using hh.1 c hc, by simpa using hh.2 c hc⟩
  · intro hh
    exact ⟨fun c hc => by simp [(hh c hc).1], fun c hc => by simp [(hh c hc).2]⟩

/-- Witness of C8: one scalar `new`, one scalar `delete` and three array
calls. -/
theorem C8_non_array_calls_counts_scalar_calls_witness :
    (run [call.array_new 32, call.scalar_new 1, call.array_new 64,
        call.array_delete 32, call.scalar_delete] (reset stale_statics)).non_array_calls
      = 2 :=
  (C8_non_array_calls_counts_scalar_calls
    [call.array_new 32, call.scalar_new 1, call.array_new 64,
      call.array_delete 32, call.scalar_delete] stale_statics (by decide)).1

/-- C9: in every state `reset()` yields the state in which all five static
members are `0`; resetting twice is the same as resetting once; the first
`operator new[]` after a reset stores its own request size in
`last_allocation_size` and leaves `max_growth_factor` as the reset left it; and
what a sequence of calls yields after a reset does not depend on the state
before the reset. -/
theorem C9_reset_clears_all_static_data (s : statics) :
    reset s = { new_calls := 0, delete_calls := 0, non_array_calls := 0,
                last_allocation_size := 0, max_growth_factor := 0 } ∧
    reset (reset s) = reset s ∧
    (∀ count : Nat,
      (operator_new_array count (reset s)).last_allocation_size = count ∧
      (operator_new_array count (reset s)).max_growth_factor
        = (reset s).max_growth_factor) ∧
    (∀ (s' : statics) (cs : List call), run cs (reset s) = run cs (reset s')) := by
  refine ⟨rfl, rfl, fun count => ?_, fun s' cs => rfl⟩
  simp [operator_new_array, reset]

/-- C10: after `reset()` and `operator new[]` calls with request sizes
`c_1, ..., c_n`, with `j` the index of the first non-zero request:
`last_allocation_size` is `c_j` and `max_growth_factor` is
`max(0, max over i > j of c_i / c_j)` as an exact rational, and both are `0`
when every request is zero (`spec_last_allocation_size`,
`spec_max_growth_factor`).  In every state no shim call decreases
`max_growth_factor`, and scalar `new`, scalar `delete` and `delete[]` leave it
unchanged. -/
theorem C10_growth_factor_relative_to_first_nonzero_request
    (counts : List Nat) (s : statics) :
    (run_new_array counts (reset s)).last_allocation_size
      = spec_last_allocation_size counts ∧
    (run_new_array counts (reset s)).max_growth_factor
      = spec_max_growth_factor counts ∧
    (∀ (c : call) (s' : statics),
      s'.max_growth_factor ≤ (c.apply s').max_growth_factor) ∧
    (∀ (count : Nat) (s' : statics),
      (operator_new count s').max_growth_factor = s'.max_growth_factor) ∧
    (∀ s' : statics, (operator_delete s').max_growth_factor = s'.max_growth_factor) ∧
    (∀ (size : Nat) (s' : statics),
      (operator_delete_array size s').max_growth_factor = s'.max_growth_factor) := by
  have h := run_new_array_of_zero counts (reset s) rfl rfl
  refine ⟨h.1, h.2, ?_, fun _ _ => rfl, fun _ => rfl, fun _ _ => rfl⟩
  intro c s'
  cases c with
  | scalar_new count => exact le_of_eq rfl
  | scalar_delete => exact le_of_eq rfl
  | array_delete size => exact le_of_eq rfl
  | array_new count =>
    by_cases h0 : s'.last_allocation_size = 0
    · simp [call.apply, operator_new_array, h0]
    · simp only [call.apply, operator_new_array, h0, if_false]
      split
      · rename_i hlt
        exact le_of_lt hlt
      · exact le_refl _

/-! ## The tests on the stack: claims -/

set_option maxRecDepth 8192

/-- C1: for every `N ≥ 1`, after `reset()`, the construction of an empty
stack and `N` pushes, with the stack still alive, `delete_calls + 1 ==
new_calls`.  The sum is a `std::size_t` sum, taken modulo `2 ^ 64`; it is the
plain sum as soon as `N + 1 < 2 ^ 64`.  This holds for every base capacity and
growth function, with eager and with lazy allocation of the first block. -/
theorem C1_deletes_one_less_than_news (p : stack_impl) (s : statics) (N : Nat)
    (hN : 1 ≤ N) :
    ((test_run p N s).2.delete_calls + 1) % SIZE_MOD = (test_run p N s).2.new_calls ∧
    (N + 1 < SIZE_MOD →
      (test_run p N s).2.delete_calls + 1 = (test_run p N s).2.new_calls) := by
  obtain ⟨-, -, h3, h4, h5⟩ := test_run_counts p s N
  have ha : (test_run p N s).1.allocated = true := by
    cases h : (test_run p N s).1.allocated
    · have := (h5 h).1
      omega
    · rfl
  have h6 := h4 ha
  refine ⟨h6.symm, fun hlt => ?_⟩
  rw [h6, Nat.mod_eq_of_lt (by omega)]

/-- Witness of C1: three pushes on a doubling stack of base capacity 32. -/
theorem C1_deletes_one_less_than_news_witness :
    ((test_run doubling_32 3 stale_statics).2.delete_calls + 1) % SIZE_MOD
      = (test_run doubling_32 3 stale_statics).2.new_calls ∧
    (test_run doubling_32 3 stale_statics).2.delete_calls + 1
      = (test_run doubling_32 3 stale_statics).2.new_calls :=
  ⟨(C1_deletes_one_less_than_news doubling_32 stale_statics 3 (by decide)).1,
    (C1_deletes_one_less_than_news doubling_32 stale_statics 3 (by decide)).2 (by decide)⟩

/-- C2: for every `N` in `{2^2-1, 2^4-1, 2^7-1, 2^12-1, 2^14-1, 2^21-1}`,
after `reset()`, the construction of an empty stack and `N` pushes,
`new_calls ≥ 1` and `non_array_calls == 0`. -/
theorem C2_uses_array_new_only (p : stack_impl) (s : statics) (N : Nat)
    (hN : N ∈ [2 ^ 2 - 1, 2 ^ 4 - 1, 2 ^ 7 - 1, 2 ^ 12 - 1, 2 ^ 14 - 1, 2 ^ 21 - 1]) :
    1 ≤ (test_run p N s).2.new_calls ∧ (test_run p N s).2.non_array_calls = 0 := by
  have hb : 1 ≤ N ∧ N ≤ 2097151 := by
    simp only [List.mem_cons, List.mem_singleton, List.mem_nil_iff, or_false] at hN
    norm_num at hN
    omega
  obtain ⟨-, h2, h3, h4, h5⟩ := test_run_counts p s N
  have ha : (test_run p N s).1.allocated = true := by
    cases h : (test_run p N s).1.allocated
    · have := (h5 h).1
      omega
    · rfl
  refine ⟨?_, h2⟩
  rw [h4 ha, Nat.mod_eq_of_lt (by unfold SIZE_MOD; omega)]
  omega

/-- Witness of C2: `N = 2^2 - 1` on a doubling stack of base capacity 32. -/
theorem C2_uses_array_new_only_witness :
    1 ≤ (test_run doubling_32 (2 ^ 2 - 1) stale_statics).2.new_calls ∧
    (test_run doubling_32 (2 ^ 2 - 1) stale_statics).2.non_array_calls = 0 :=
  C2_uses_array_new_only doubling_32 stale_statics (2 ^ 2 - 1) (by decide)

/-- C4, as stated, fails on a stack the tests accept: with base capacity 16 and
doubling, 31 pushes need two blocks, so the allocation count after 31 pushes is
`2`, not `1`. -/
theorem C4_base_16_counterexample :
    (test_run doubling_16 31 stale_statics).2.new_calls = 2 ∧
    (test_run doubling_16 31 stale_statics).2.new_calls ≠ 1 := by
  decide

/-- The stack of the C4 counterexample passes the base-capacity test: after 33
pushes three blocks were acquired. -/
theorem doubling_16_passes_base_capacity_test :
    doubling_16.base_capacity ≤ 32 ∧
    (test_run doubling_16 33 stale_statics).2.new_calls = 3 := by
  decide

/-- C4, amended: for a stack whose base capacity is exactly 32, starting from
a freshly constructed empty stack with all counters reset, the allocation
count is `1` after 31 pushes, still `1` after the 32nd push, and `2` after the
33rd push. -/
theorem C4_base_32_scenario (p : stack_impl) (s : statics)
    (hb : p.base_capacity = 32) :
    (test_run p 31 s).2.new_calls = 1 ∧ (test_run p 32 s).2.new_calls = 1 ∧
    (test_run p 33 s).2.new_calls = 2 := by
  refine ⟨(test_run_base_32 p s hb 31 (by omega) (by omega)).2.2,
    (test_run_base_32 p s hb 32 (by omega) (by omega)).2.2, ?_⟩
  obtain ⟨i1, i2, i3⟩ := test_run_base_32 p s hb 32 (by omega) (by omega)
  have hsz : (test_run p 32 s).1.buffer.length = (test_run p 32 s).1.cap := by
    rw [(test_run_counts p s 32).1, i1]
  rw [test_run_succ, push_grow_allocated p _ _ hsz i2]
  simp [i3, SIZE_MOD]

/-- Witness of the amended C4: a doubling stack of base capacity 32. -/
theorem C4_base_32_scenario_witness :
    (test_run doubling_32 31 stale_statics).2.new_calls = 1 ∧
    (test_run doubling_32 32 stale_statics).2.new_calls = 1 ∧
    (test_run doubling_32 33 stale_statics).2.new_calls = 2 :=
  C4_base_32_scenario doubling_32 stale_statics rfl

end sneaky_use_newdelete_ops
